import Mathlib

/-!
# Verification of the HTTP method-decorator core (`http-request-caps`)

Shallow embedding of `src/HttpDecorator/DecoratorCore.ts`:
`HttpMethodDecoratorFactory` wraps an annotated method; at call time it
reads per-method metadata, builds an axios request config, performs the
request, injects the response or error into the call's argument array,
and finally delegates to the original method body.

JavaScript runtime values are modelled by the inductive type `Value`;
plain objects are association lists of string keys.  Array index
assignment `args[i] = v` (which in JavaScript extends the array past its
end, filling holes with `undefined`) is modelled by `setArg`; reads
`args[i]` past the end yield `undefined` (`getArg`).

The helper modules `RequestConfig.ts` and `utils.ts` are not part of the
given sources; the definitions that stand for them are modelled from the
specification and carry a doc comment saying so.
-/

set_option autoImplicit false

namespace HttpRequestCaps

/-- A JavaScript runtime value, as far as the decorator core observes it:
`undefined`, `null`, booleans, numbers, strings, and plain key/value
objects (association lists, first binding wins on lookup). -/
inductive Value : Type where
  | vUndefined : Value
  | vNull : Value
  | vBool : Bool → Value
  | vNum : Int → Value
  | vStr : String → Value
  | vObj : List (String × Value) → Value

/-- Key lookup in a plain object: first binding for the key, if any. -/
def objGet : List (String × Value) → String → Option Value
  | [], _ => none
  | p :: rest, k => if p.1 = k then some p.2 else objGet rest k

/-- Whether a plain object has a binding for key `k`. -/
def containsKey : List (String × Value) → String → Bool
  | [], _ => false
  | p :: rest, k => if p.1 = k then true else containsKey rest k

/-- Shallow merge of two plain objects, as the JavaScript object spread
`\x7b ...a, ...b \x7d`: keys of `b` override keys of `a`. -/
def mergeObj (a b : List (String × Value)) : List (String × Value) :=
  a.filter (fun p => !(containsKey b p.1)) ++ b

/-- Reading `args[i]`: past the end of the array yields `undefined`. -/
def getArg (args : List Value) (i : Nat) : Value :=
  args.getD i Value.vUndefined

/-- JavaScript array index assignment `args[i] = v`: in range it replaces
the element; past the end it extends the array, the holes reading back as
`undefined`. -/
def setArg : List Value → Nat → Value → List Value
  | [], 0, v => [v]
  | [], n + 1, v => Value.vUndefined :: setArg [] n v
  | _ :: rest, 0, v => v :: rest
  | x :: rest, n + 1, v => x :: setArg rest n v

@[simp] theorem containsKey_nil (k : String) : containsKey [] k = false := rfl

@[simp] theorem containsKey_cons (p : String × Value) (rest : List (String × Value))
    (k : String) :
    containsKey (p :: rest) k = if p.1 = k then true else containsKey rest k := rfl

@[simp] theorem objGet_nil (k : String) : objGet [] k = none := rfl

@[simp] theorem objGet_cons (p : String × Value) (rest : List (String × Value))
    (k : String) :
    objGet (p :: rest) k = if p.1 = k then some p.2 else objGet rest k := rfl

theorem mergeObj_nil (a : List (String × Value)) : mergeObj a [] = a := by
  unfold mergeObj
  simp only [containsKey_nil, Bool.not_false, List.filter_true, List.append_nil]

theorem objGet_eq_none_of_not_containsKey (b : List (String × Value)) (k : String)
    (h : containsKey b k = false) : objGet b k = none := by
  induction b with
  | nil => rfl
  | cons p rest ih =>
      simp only [containsKey_cons] at h
      by_cases hk : p.1 = k
      · simp [hk] at h
      · simp only [objGet_cons, hk, if_false]
        exact ih (by simpa [hk] using h)

/-- Lookup in a merge: keys of the second object win. -/
theorem objGet_mergeObj (a b : List (String × Value)) (k : String) :
    objGet (mergeObj a b) k =
      if containsKey b k then objGet b k else objGet a k := by
  induction a with
  | nil =>
      simp only [mergeObj, List.filter_nil, List.nil_append]
      cases h : containsKey b k
      · simp [objGet_eq_none_of_not_containsKey b k h]
      · simp
  | cons p rest ih =>
      simp only [mergeObj] at ih ⊢
      by_cases hp : containsKey b p.1 = true
      · rw [List.filter_cons_of_neg (by simp [hp])]
        rw [ih]
        by_cases hk : containsKey b k = true
        · simp [hk]
        · have hpk : p.1 ≠ k := fun he => hk (he ▸ hp)
          simp [hk, hpk]
      · rw [List.filter_cons_of_pos (by simp [Bool.not_eq_true] at hp ⊢; exact hp)]
        simp only [List.cons_append, objGet_cons]
        by_cases hk : p.1 = k
        · subst hk
          simp [Bool.not_eq_true] at hp
          simp [hp]
        · simp only [hk, if_false]
          rw [ih]

@[simp] theorem setArg_length (xs : List Value) (n : Nat) (v : Value) :
    (setArg xs n v).length = max xs.length (n + 1) := by
  induction n generalizing xs with
  | zero =>
      cases xs <;> simp [setArg]
  | succ n ih =>
      cases xs with
      | nil => simp [setArg, ih]
      | cons x rest => simp [setArg, ih]; omega

theorem getArg_setArg_self (xs : List Value) (n : Nat) (v : Value) :
    getArg (setArg xs n v) n = v := by
  induction n generalizing xs with
  | zero => cases xs <;> rfl
  | succ n ih =>
      cases xs with
      | nil =>
          show getArg (setArg [] n v) n = v
          exact ih []
      | cons x rest =>
          show getArg (setArg rest n v) n = v
          exact ih rest

theorem getArg_setArg_ne (xs : List Value) (n i : Nat) (v : Value) (h : i ≠ n) :
    getArg (setArg xs n v) i = getArg xs i := by
  induction n generalizing xs i with
  | zero =>
      cases xs with
      | nil =>
          cases i with
          | zero => exact absurd rfl h
          | succ i => cases i <;> rfl
      | cons x rest =>
          cases i with
          | zero => exact absurd rfl h
          | succ i => rfl
  | succ n ih =>
      cases xs with
      | nil =>
          cases i with
          | zero => rfl
          | succ i =>
              show getArg (setArg [] n v) i = getArg [] i
              have : getArg [] i = Value.vUndefined := by cases i <;> rfl
              rw [this, ih [] i (fun hc => h (by omega))]
              cases i <;> rfl
      | cons x rest =>
          cases i with
          | zero => rfl
          | succ i =>
              show getArg (setArg rest n v) i = getArg rest i
              exact ih rest i (fun hc => h (by omega))

/-- Modelled from the spec: `isObject` lives in `utils.ts`, which is not
among the given sources.  Per the spec ("the argument at that position is
a plain key/value object"), it recognises plain key/value objects. -/
def isObject : Value → Bool
  | Value.vObj _ => true
  | _ => false

/-- The fields a plain-object value carries (used after an `isObject`
guard; any other value contributes nothing). -/
def asObjFields : Value → List (String × Value)
  | Value.vObj fields => fields
  | _ => []

/-- `hasValidParamIndex` from `DecoratorCore.ts` line 32:
`isNumber(index) && index >= 0`.  An index read from metadata is either a
number (`some n`) or `undefined` (`none`); `isNumber` is from the missing
`utils.ts` and, per the spec, tests that the index is present (a number). -/
def hasValidParamIndex : Option Int → Bool
  | some n => decide (0 ≤ n)
  | none => false

/-- The array position denoted by a metadata index, when
`hasValidParamIndex` accepts it. -/
def validIdx : Option Int → Option Nat
  | some n => if 0 ≤ n then some n.toNat else none
  | none => none

/-- The guarded injection `if (hasValidParamIndex(idx)) args[idx] = v`
(`DecoratorCore.ts` lines 74-76 and 79-81). -/
def injectAt (args : List Value) (idx : Option Int) (v : Value) : List Value :=
  match validIdx idx with
  | some n => setArg args n v
  | none => args

/-- `useDataField` from `DecoratorCore.ts` line 34:
`['POST', 'PUT', 'PATCH'].includes(method)`. -/
def useDataField (method : String) : Bool :=
  ["POST", "PUT", "PATCH"].contains method

/-- Per-method metadata read by `getMetaData` (`DecoratorCore.ts` lines
16-30): each field is `undefined` when the producing annotation never
ran. -/
structure MethodMetadata where
  headers : Option (List (String × Value))
  params : Option (List (String × Value))
  paramsIndex : Option Int
  responseIndex : Option Int
  errorIndex : Option Int

/-- The slice of an `AxiosRequestConfig` the decorator core manipulates:
`url`, `method`, `headers`, `params` (query parameters) and `data`
(request body). -/
structure RequestConfig where
  url : Option String
  method : Option String
  headers : Option (List (String × Value))
  params : Option (List (String × Value))
  data : Option (List (String × Value))

/-- A layer passed to `assignRequestConfig`: the three call sites pass
`\x7b data \x7d`, `\x7b params \x7d` or `\x7b headers \x7d`. -/
structure ConfigLayer where
  headers : Option (List (String × Value)) := none
  params : Option (List (String × Value)) := none
  data : Option (List (String × Value)) := none

/-- Key-wise merge of an optional mapping field with a layer's
contribution: absent layer leaves the field untouched, a present layer's
keys win. -/
def mergeOptObj (base layer : Option (List (String × Value))) :
    Option (List (String × Value)) :=
  match layer with
  | some l => some (mergeObj (base.getD []) l)
  | none => base

/-- Modelled from the spec: `assignRequestConfig` lives in
`RequestConfig.ts`, which is not among the given sources.  Per the spec,
it merges a later layer into the config with "later write wins" per key
(mapping-valued fields such as headers merge key-wise, metadata keys
overriding), and keys not present in the layer are left untouched. -/
def assignRequestConfig (rc : RequestConfig) (layer : ConfigLayer) : RequestConfig :=
  { rc with
    headers := mergeOptObj rc.headers layer.headers
    params := mergeOptObj rc.params layer.params
    data := mergeOptObj rc.data layer.data }

/-- The runtime contribution to the request parameters
(`DecoratorCore.ts` lines 53-57): the argument selected by `paramsIndex`
when that index is valid and the argument is a plain object, else
nothing.  A valid index past the end of the argument list reads
`undefined`, which is not an object. -/
def runtimeContribution (paramsIndex : Option Int) (args : List Value) :
    List (String × Value) :=
  match validIdx paramsIndex with
  | some i => if isObject (getArg args i) then asObjFields (getArg args i) else []
  | none => []

/-- The merged request parameters (`DecoratorCore.ts` lines 51-58):
`\x7b ...params, ...(guarded runtime argument) \x7d`. -/
def requestParamsOf (staticParams : List (String × Value)) (paramsIndex : Option Int)
    (args : List Value) : List (String × Value) :=
  mergeObj staticParams (runtimeContribution paramsIndex args)

/-- Building the request config for one invocation (`DecoratorCore.ts`
lines 49-70): start from the default config, place the merged parameters
under `data` for POST/PUT/PATCH and under `params` otherwise, merge the
metadata headers if present, then set `url` and `method` from the
decorator's captured arguments. -/
def buildDescriptor (defaultConfig : RequestConfig) (meta : MethodMetadata)
    (method url : String) (args : List Value) : RequestConfig :=
  let params := meta.params.getD []
  let requestParams := requestParamsOf params meta.paramsIndex args
  let rc := defaultConfig
  let rc :=
    if useDataField method then
      assignRequestConfig rc { data := some requestParams }
    else
      assignRequestConfig rc { params := some requestParams }
  let rc :=
    match meta.headers with
    | some h => assignRequestConfig rc { headers := some h }
    | none => rc
  { rc with url := some url, method := some method }

/-- Result of one transport call: axios either resolves with a decoded
response payload or rejects with an error value. -/
abbrev TransportResult := Except Value Value

/-- A transport collaborator: what `axios(requestConfig)` settles to, as
a function of the config it was given. -/
abbrev Transport := RequestConfig → TransportResult

/-- `try ... catch` (`DecoratorCore.ts` lines 72-82): an exception thrown
by the body is given to the handler instead of propagating. -/
def tryCatch {ε α : Type} (body : Except ε α) (handler : ε → Except ε α) : Except ε α :=
  match body with
  | Except.ok a => Except.ok a
  | Except.error e => handler e

/-- The argument array after the HTTP phase (`DecoratorCore.ts` lines
72-82): on success the response payload is injected at `responseIndex`,
on failure the error value at `errorIndex`; an invalid index leaves the
array unchanged. -/
def interceptArgs (meta : MethodMetadata) (transport : Transport)
    (rc : RequestConfig) (args : List Value) : List Value :=
  match transport rc with
  | Except.ok responseData => injectAt args meta.responseIndex responseData
  | Except.error e => injectAt args meta.errorIndex e

/-- The `try`/`catch` of the wrapper as written: the body awaits the
transport and injects the response; the `catch` clause turns any thrown
error into the error-injected argument array. -/
def tryRequest (meta : MethodMetadata) (transport : Transport)
    (rc : RequestConfig) (args : List Value) : Except Value (List Value) :=
  tryCatch
    ((transport rc).map (fun responseData => injectAt args meta.responseIndex responseData))
    (fun e => Except.ok (injectAt args meta.errorIndex e))

/-- The single delegation `rawMethod.apply(this, args)` performed by the
wrapper (`DecoratorCore.ts` line 84): the receiver it is applied to and
the (possibly mutated) argument array it receives. -/
structure DelegatedCall (α : Type) where
  receiver : α
  args : List Value

/-- The wrapped method installed by `HttpMethodDecoratorFactory`
(`DecoratorCore.ts` lines 39-85), for one invocation with receiver
`this` and arguments `args`: `Except.error` would mean an exception
escapes to the caller, `Except.ok` carries the one delegation to the
original method body. -/
def httpMethodWrapper {α : Type} (method url : String) (meta : MethodMetadata)
    (defaultConfig : RequestConfig) (transport : Transport)
    (this : α) (args : List Value) : Except Value (DelegatedCall α) :=
  let rc := buildDescriptor defaultConfig meta method url args
  (tryRequest meta transport rc args).map (fun finalArgs => ⟨this, finalArgs⟩)

/-- How many times a wrapper outcome calls the original method body. -/
def rawMethodCalls {α : Type} : Except Value (DelegatedCall α) → Nat
  | Except.ok _ => 1
  | Except.error _ => 0

/-- Process-wide mutable state: the default request config store
(`RequestConfig.ts`). -/
structure GlobalState where
  defaultRequestConfig : RequestConfig

/-- Modelled from the spec: `getDefaultRequestConfig` lives in
`RequestConfig.ts`, which is not among the given sources.  Per the spec,
every descriptor "starts from a copy of `defaultConfig`" and the store is
"read (never mutated) by every request", so the accessor hands the
request a copy of the stored value. -/
def getDefaultRequestConfig (s : GlobalState) : RequestConfig :=
  s.defaultRequestConfig

/-- Everything that varies between invocations of decorated methods. -/
structure Invocation where
  method : String
  url : String
  meta : MethodMetadata
  transport : Transport
  args : List Value

/-- One invocation of a decorated method against the process state: it
reads the default config store and never writes it back. -/
def runInvocation (s : GlobalState) (inv : Invocation) :
    GlobalState × Except Value (DelegatedCall Unit) :=
  (s, httpMethodWrapper inv.method inv.url inv.meta (getDefaultRequestConfig s)
    inv.transport () inv.args)

/-- Any number of invocations run in sequence against the process
state. -/
def runRequests (s : GlobalState) (calls : List Invocation) : GlobalState :=
  calls.foldl (fun st c => (runInvocation st c).1) s

/-! ## Shared lemmas -/

theorem tryRequest_eq (meta : MethodMetadata) (transport : Transport)
    (rc : RequestConfig) (args : List Value) :
    tryRequest meta transport rc args =
      Except.ok (interceptArgs meta transport rc args) := by
  unfold tryRequest tryCatch interceptArgs
  cases transport rc <;> rfl

theorem httpMethodWrapper_eq {α : Type} (method url : String) (meta : MethodMetadata)
    (defaultConfig : RequestConfig) (transport : Transport) (this : α)
    (args : List Value) :
    httpMethodWrapper method url meta defaultConfig transport this args =
      Except.ok ⟨this,
        interceptArgs meta transport
          (buildDescriptor defaultConfig meta method url args) args⟩ := by
  unfold httpMethodWrapper
  simp only [tryRequest_eq, Except.map]

theorem hasValidParamIndex_eq_isSome_validIdx (idx : Option Int) :
    hasValidParamIndex idx = (validIdx idx).isSome := by
  cases idx with
  | none => rfl
  | some n =>
      by_cases h : (0 : Int) ≤ n <;> simp [hasValidParamIndex, validIdx, h]

theorem injectAt_of_validIdx_eq_none (args : List Value) (idx : Option Int)
    (v : Value) (h : validIdx idx = none) : injectAt args idx v = args := by
  unfold injectAt
  rw [h]

theorem injectAt_of_validIdx_eq_some (args : List Value) (idx : Option Int)
    (v : Value) (n : Nat) (h : validIdx idx = some n) :
    injectAt args idx v = setArg args n v := by
  unfold injectAt
  rw [h]

theorem getArg_of_length_le (args : List Value) (i : Nat) (h : args.length ≤ i) :
    getArg args i = Value.vUndefined :=
  List.getD_eq_default args Value.vUndefined h

/-! ## Claims -/

/-- C1.  For every invocation of a decorated method — whatever the
transport does — the wrapper settles to `Except.ok` (no transport
failure escapes to the caller as a call-terminating exception) carrying
exactly one delegation to the original method body, performed after the
HTTP phase on the post-injection argument array. -/
theorem raw_method_always_invoked_once {α : Type} (method url : String)
    (meta : MethodMetadata) (defaultConfig : RequestConfig) (transport : Transport)
    (this : α) (args : List Value) :
    httpMethodWrapper method url meta defaultConfig transport this args =
      Except.ok ⟨this,
        interceptArgs meta transport
          (buildDescriptor defaultConfig meta method url args) args⟩ ∧
    rawMethodCalls (httpMethodWrapper method url meta defaultConfig transport this args)
      = 1 := by
  refine ⟨httpMethodWrapper_eq method url meta defaultConfig transport this args, ?_⟩
  rw [httpMethodWrapper_eq]
  rfl

/-- C2.  `useDataField` accepts exactly the verbs POST, PUT, PATCH; for
those verbs the merged request parameters are placed under the
descriptor's `data` (body) field and the query-parameter field is left
as the default config had it, and for every other verb the reverse. -/
theorem verb_classification_placement (v url : String) (meta : MethodMetadata)
    (defaultConfig : RequestConfig) (args : List Value) :
    (useDataField v = true ↔ (v = "POST" ∨ v = "PUT" ∨ v = "PATCH")) ∧
    (if useDataField v then
      (buildDescriptor defaultConfig meta v url args).data =
        some (mergeObj (defaultConfig.data.getD [])
          (requestParamsOf (meta.params.getD []) meta.paramsIndex args)) ∧
      (buildDescriptor defaultConfig meta v url args).params = defaultConfig.params
    else
      (buildDescriptor defaultConfig meta v url args).params =
        some (mergeObj (defaultConfig.params.getD [])
          (requestParamsOf (meta.params.getD []) meta.paramsIndex args)) ∧
      (buildDescriptor defaultConfig meta v url args).data = defaultConfig.data) := by
  constructor
  · simp [useDataField, List.contains]
  · unfold buildDescriptor
    cases hv : useDataField v <;>
      simp only [hv, if_true, if_false, Bool.false_eq_true] <;>
      cases meta.headers <;>
        simp [assignRequestConfig, mergeOptObj]

/-- Witness for C2 at concrete verbs: POST is a body verb and its merged
parameters land under `data`; GET is not and its merged parameters land
under `params`. -/
theorem verb_classification_placement_witness :
    useDataField "POST" = true ∧
    (buildDescriptor ⟨none, none, none, none, none⟩ ⟨none, none, none, none, none⟩
        "POST" "/users" []).data
      = some (mergeObj [] (requestParamsOf [] none [])) ∧
    (buildDescriptor ⟨none, none, none, none, none⟩ ⟨none, none, none, none, none⟩
        "GET" "/users" []).params
      = some (mergeObj [] (requestParamsOf [] none [])) := by
  refine ⟨(verb_classification_placement "POST" "/users" ⟨none, none, none, none, none⟩
    ⟨none, none, none, none, none⟩ []).1.mpr (Or.inl rfl), ?_, ?_⟩
  · have h := (verb_classification_placement "POST" "/users"
      ⟨none, none, none, none, none⟩ ⟨none, none, none, none, none⟩ []).2
    simp only [useDataField, List.contains] at h
    exact h.1
  · have h := (verb_classification_placement "GET" "/users"
      ⟨none, none, none, none, none⟩ ⟨none, none, none, none, none⟩ []).2
    simp only [useDataField, List.contains] at h
    exact h.1

/-- C3.  The effective request parameters are the shallow merge of the
static params with the runtime argument selected by `paramsIndex`,
runtime keys winning, exactly when that index is valid, in range, and
the argument there is a plain object; otherwise they are the static
params alone. -/
theorem effective_request_params (staticParams : List (String × Value))
    (pIdx : Option Int) (args : List Value) :
    (∀ i fields, validIdx pIdx = some i → i < args.length →
        getArg args i = Value.vObj fields →
        requestParamsOf staticParams pIdx args = mergeObj staticParams fields ∧
        ∀ k, objGet (requestParamsOf staticParams pIdx args) k =
          if containsKey fields k then objGet fields k else objGet staticParams k) ∧
    ((∀ i, validIdx pIdx = some i → isObject (getArg args i) = false) →
        requestParamsOf staticParams pIdx args = staticParams) := by
  constructor
  · intro i fields hv _ hobj
    have harg : runtimeContribution pIdx args = fields := by
      unfold runtimeContribution
      rw [hv]
      dsimp only
      rw [hobj]
      rfl
    refine ⟨by rw [requestParamsOf, harg], ?_⟩
    intro k
    rw [requestParamsOf, harg, objGet_mergeObj]
  · intro h
    unfold requestParamsOf runtimeContribution
    cases hv : validIdx pIdx with
    | none => exact mergeObj_nil staticParams
    | some i =>
        dsimp only
        rw [h i hv]
        simpa using mergeObj_nil staticParams

/-- Witness for C3 at concrete inputs: a runtime object at position 0
overrides the static params; a non-object runtime argument leaves the
static params alone. -/
theorem effective_request_params_witness :
    requestParamsOf [("a", Value.vNum 1)] (some 0) [Value.vObj [("a", Value.vNum 9)]]
      = mergeObj [("a", Value.vNum 1)] [("a", Value.vNum 9)] ∧
    requestParamsOf [("a", Value.vNum 1)] (some 0) [Value.vNum 5]
      = [("a", Value.vNum 1)] := by
  constructor
  · exact ((effective_request_params [("a", Value.vNum 1)] (some 0)
      [Value.vObj [("a", Value.vNum 9)]]).1 0 [("a", Value.vNum 9)] rfl
      (by decide) rfl).1
  · refine (effective_request_params [("a", Value.vNum 1)] (some 0)
      [Value.vNum 5]).2 ?_
    intro i hi
    have : i = 0 := by
      have h0 : validIdx (some (0 : Int)) = some 0 := rfl
      rw [h0] at hi
      exact (Option.some.inj hi).symm
    rw [this]
    rfl

/-- C4.  When the transport fails and `errorIndex` denotes a valid
in-range position, the error value is written into that argument slot,
the failure is swallowed, and the original method is still invoked with
the mutated argument list (same length, error at position `j`). -/
theorem error_injected_on_failure {α : Type} (method url : String)
    (meta : MethodMetadata) (defaultConfig : RequestConfig) (transport : Transport)
    (this : α) (args : List Value) (e : Value) (j : Nat)
    (hfail : transport (buildDescriptor defaultConfig meta method url args)
      = Except.error e)
    (hidx : validIdx meta.errorIndex = some j)
    (hrange : j < args.length) :
    httpMethodWrapper method url meta defaultConfig transport this args
      = Except.ok ⟨this, setArg args j e⟩ ∧
    getArg (setArg args j e) j = e ∧
    (setArg args j e).length = args.length := by
  refine ⟨?_, getArg_setArg_self args j e, ?_⟩
  · rw [httpMethodWrapper_eq]
    unfold interceptArgs
    rw [hfail]
    dsimp only
    rw [injectAt_of_validIdx_eq_some args meta.errorIndex e j hidx]
  · rw [setArg_length]
    omega

/-- Witness for C4: a failing transport with `errorIndex = 0` over a
one-argument call injects the error at position 0 and still delegates. -/
theorem error_injected_on_failure_witness :
    httpMethodWrapper "GET" "/users" ⟨none, none, none, none, some 0⟩
        ⟨none, none, none, none, none⟩ (fun _ => Except.error (Value.vStr "boom"))
        () [Value.vNull]
      = Except.ok ⟨(), setArg [Value.vNull] 0 (Value.vStr "boom")⟩ ∧
    getArg (setArg [Value.vNull] 0 (Value.vStr "boom")) 0 = Value.vStr "boom" ∧
    (setArg [Value.vNull] 0 (Value.vStr "boom")).length = [Value.vNull].length :=
  error_injected_on_failure "GET" "/users" ⟨none, none, none, none, some 0⟩
    ⟨none, none, none, none, none⟩ (fun _ => Except.error (Value.vStr "boom"))
    () [Value.vNull] (Value.vStr "boom") 0 rfl rfl (by decide)

/-- C5.  When the transport succeeds and `responseIndex` denotes a valid
in-range position, that argument slot is overwritten with the decoded
response payload before the original method is called, so the delegated
call receives the payload at that position. -/
theorem response_injected_on_success {α : Type} (method url : String)
    (meta : MethodMetadata) (defaultConfig : RequestConfig) (transport : Transport)
    (this : α) (args : List Value) (payload : Value) (r : Nat)
    (hok : transport (buildDescriptor defaultConfig meta method url args)
      = Except.ok payload)
    (hidx : validIdx meta.responseIndex = some r)
    (hrange : r < args.length) :
    httpMethodWrapper method url meta defaultConfig transport this args
      = Except.ok ⟨this, setArg args r payload⟩ ∧
    getArg (setArg args r payload) r = payload ∧
    (setArg args r payload).length = args.length := by
  refine ⟨?_, getArg_setArg_self args r payload, ?_⟩
  · rw [httpMethodWrapper_eq]
    unfold interceptArgs
    rw [hok]
    dsimp only
    rw [injectAt_of_validIdx_eq_some args meta.responseIndex payload r hidx]
  · rw [setArg_length]
    omega

/-- Witness for C5: a successful transport with `responseIndex = 1` over
a two-argument call injects the payload at position 1 and delegates. -/
theorem response_injected_on_success_witness :
    httpMethodWrapper "GET" "/users" ⟨none, none, none, some 1, none⟩
        ⟨none, none, none, none, none⟩ (fun _ => Except.ok (Value.vStr "payload"))
        () [Value.vNum 42, Value.vUndefined]
      = Except.ok ⟨(), setArg [Value.vNum 42, Value.vUndefined] 1 (Value.vStr "payload")⟩ ∧
    getArg (setArg [Value.vNum 42, Value.vUndefined] 1 (Value.vStr "payload")) 1
      = Value.vStr "payload" ∧
    (setArg [Value.vNum 42, Value.vUndefined] 1 (Value.vStr "payload")).length
      = [Value.vNum 42, Value.vUndefined].length :=
  response_injected_on_success "GET" "/users" ⟨none, none, none, some 1, none⟩
    ⟨none, none, none, none, none⟩ (fun _ => Except.ok (Value.vStr "payload"))
    () [Value.vNum 42, Value.vUndefined] (Value.vStr "payload") 1 rfl rfl (by decide)

/-- C6 counterexample.  The claim says an out-of-range `responseIndex`
leaves the argument list unchanged in length and content; but
`hasValidParamIndex` never checks the upper bound, so with one argument
and `responseIndex = 2` a successful request extends the argument array
to `[null, undefined, "ok"]` — not the caller's one-argument list. -/
theorem invalid_index_ignored_counterexample :
    httpMethodWrapper "GET" "/users" ⟨none, none, none, some 2, none⟩
        ⟨none, none, none, none, none⟩ (fun _ => Except.ok (Value.vStr "ok"))
        () [Value.vNull]
      = Except.ok ⟨(), [Value.vNull, Value.vUndefined, Value.vStr "ok"]⟩ ∧
    [Value.vNull, Value.vUndefined, Value.vStr "ok"] ≠ [Value.vNull] := by
  constructor
  · rw [httpMethodWrapper_eq]
    rfl
  · intro h
    simpa using congrArg List.length h

/-- C6 amended.  A `responseIndex`/`errorIndex` that is unset,
non-numeric or negative is not engaged: nothing is injected and the
argument list reaches the original method unchanged, with no failure;
an out-of-range `paramsIndex` contributes no runtime parameters; but a
non-negative `responseIndex` (resp. `errorIndex`) pointing past the end
of the argument list is still engaged on success (resp. failure): the
array is extended with `undefined` up to that position and the value is
written there. -/
theorem invalid_index_amended (meta : MethodMetadata) (transport : Transport)
    (rc : RequestConfig) (args : List Value) :
    (∀ d, transport rc = Except.ok d → validIdx meta.responseIndex = none →
        interceptArgs meta transport rc args = args) ∧
    (∀ e, transport rc = Except.error e → validIdx meta.errorIndex = none →
        interceptArgs meta transport rc args = args) ∧
    (∀ d r, transport rc = Except.ok d → validIdx meta.responseIndex = some r →
        args.length ≤ r →
        interceptArgs meta transport rc args = setArg args r d ∧
        (interceptArgs meta transport rc args).length = r + 1 ∧
        getArg (interceptArgs meta transport rc args) r = d) ∧
    (∀ e j, transport rc = Except.error e → validIdx meta.errorIndex = some j →
        args.length ≤ j →
        interceptArgs meta transport rc args = setArg args j e) ∧
    (∀ i, validIdx meta.paramsIndex = some i → args.length ≤ i →
        requestParamsOf (meta.params.getD []) meta.paramsIndex args
          = meta.params.getD []) := by
  refine ⟨?_, ?_, ?_, ?_, ?_⟩
  · intro d hok hnone
    unfold interceptArgs
    rw [hok]
    dsimp only
    rw [injectAt_of_validIdx_eq_none args meta.responseIndex d hnone]
  · intro e herr hnone
    unfold interceptArgs
    rw [herr]
    dsimp only
    rw [injectAt_of_validIdx_eq_none args meta.errorIndex e hnone]
  · intro d r hok hidx hle
    have hset : interceptArgs meta transport rc args = setArg args r d := by
      unfold interceptArgs
      rw [hok]
      dsimp only
      rw [injectAt_of_validIdx_eq_some args meta.responseIndex d r hidx]
    refine ⟨hset, ?_, ?_⟩
    · rw [hset, setArg_length]
      omega
    · rw [hset]
      exact getArg_setArg_self args r d
  · intro e j herr hidx _
    unfold interceptArgs
    rw [herr]
    dsimp only
    rw [injectAt_of_validIdx_eq_some args meta.errorIndex e j hidx]
  · intro i hidx hle
    refine (effective_request_params (meta.params.getD []) meta.paramsIndex args).2 ?_
    intro i' hi'
    rw [hidx] at hi'
    rw [← Option.some.inj hi', getArg_of_length_le args i hle]
    rfl

/-- Witness for the amended C6, covering all five parts at concrete
inputs: invalid response index on success, invalid error index on
failure, out-of-range response index on success, out-of-range error
index on failure, and out-of-range params index. -/
theorem invalid_index_amended_witness :
    interceptArgs ⟨none, none, none, none, none⟩ (fun _ => Except.ok Value.vNull)
        ⟨none, none, none, none, none⟩ [Value.vNum 7] = [Value.vNum 7] ∧
    interceptArgs ⟨none, none, none, none, none⟩ (fun _ => Except.error Value.vNull)
        ⟨none, none, none, none, none⟩ [Value.vNum 7] = [Value.vNum 7] ∧
    interceptArgs ⟨none, none, none, some 2, none⟩ (fun _ => Except.ok (Value.vStr "ok"))
        ⟨none, none, none, none, none⟩ [Value.vNum 7]
      = setArg [Value.vNum 7] 2 (Value.vStr "ok") ∧
    interceptArgs ⟨none, none, none, none, some 3⟩
        (fun _ => Except.error (Value.vStr "boom"))
        ⟨none, none, none, none, none⟩ [Value.vNum 7]
      = setArg [Value.vNum 7] 3 (Value.vStr "boom") ∧
    requestParamsOf [("a", Value.vNum 1)] (some 5) [Value.vNum 7]
      = [("a", Value.vNum 1)] := by
  refine ⟨?_, ?_, ?_, ?_, ?_⟩
  · exact (invalid_index_amended ⟨none, none, none, none, none⟩
      (fun _ => Except.ok Value.vNull) ⟨none, none, none, none, none⟩
      [Value.vNum 7]).1 Value.vNull rfl rfl
  · exact (invalid_index_amended ⟨none, none, none, none, none⟩
      (fun _ => Except.error Value.vNull) ⟨none, none, none, none, none⟩
      [Value.vNum 7]).2.1 Value.vNull rfl rfl
  · exact ((invalid_index_amended ⟨none, none, none, some 2, none⟩
      (fun _ => Except.ok (Value.vStr "ok")) ⟨none, none, none, none, none⟩
      [Value.vNum 7]).2.2.1 (Value.vStr "ok") 2 rfl rfl (by decide)).1
  · exact (invalid_index_amended ⟨none, none, none, none, some 3⟩
      (fun _ => Except.error (Value.vStr "boom")) ⟨none, none, none, none, none⟩
      [Value.vNum 7]).2.2.2.1 (Value.vStr "boom") 3 rfl rfl (by decide)
  · exact (invalid_index_amended ⟨none, some [("a", Value.vNum 1)], some 5, none, none⟩
      (fun _ => Except.ok Value.vNull) ⟨none, none, none, none, none⟩
      [Value.vNum 7]).2.2.2.2 5 rfl (by decide)

/-- C7.  Requests only read the default-config store: after any number
of invocations of decorated methods, the process state — in particular
the stored default request configuration — equals its value before
them. -/
theorem default_config_never_mutated (s : GlobalState) (calls : List Invocation) :
    runRequests s calls = s ∧
    (runRequests s calls).defaultRequestConfig = s.defaultRequestConfig := by
  have h : runRequests s calls = s := by
    induction calls generalizing s with
    | nil => rfl
    | cons c cs ih => exact ih s
  exact ⟨h, by rw [h]⟩

/-- C8.  Descriptor construction is a pure function of the default
config, the method metadata (static params and params index), the verb,
the url and the call's arguments: structurally identical inputs yield
structurally identical descriptors, with no hidden state. -/
theorem buildDescriptor_deterministic (dc₁ dc₂ : RequestConfig)
    (m₁ m₂ : MethodMetadata) (v₁ v₂ u₁ u₂ : String) (a₁ a₂ : List Value)
    (hdc : dc₁ = dc₂) (hm : m₁ = m₂) (hv : v₁ = v₂) (hu : u₁ = u₂) (ha : a₁ = a₂) :
    buildDescriptor dc₁ m₁ v₁ u₁ a₁ = buildDescriptor dc₂ m₂ v₂ u₂ a₂ := by
  subst hdc hm hv hu ha
  rfl

/-- Witness for C8: two builds from identical concrete inputs agree. -/
theorem buildDescriptor_deterministic_witness :
    buildDescriptor ⟨none, none, none, none, none⟩
        ⟨none, some [("a", Value.vNum 1)], some 0, none, none⟩ "POST" "/users"
        [Value.vObj [("b", Value.vNum 2)]]
      = buildDescriptor ⟨none, none, none, none, none⟩
        ⟨none, some [("a", Value.vNum 1)], some 0, none, none⟩ "POST" "/users"
        [Value.vObj [("b", Value.vNum 2)]] :=
  buildDescriptor_deterministic _ _ _ _ _ _ _ _ _ _ rfl rfl rfl rfl rfl

/-- The argument position written by the HTTP phase, if any: on success
the valid response index, on failure the valid error index. -/
def injectedSlot (meta : MethodMetadata) : TransportResult → Option Nat
  | Except.ok _ => validIdx meta.responseIndex
  | Except.error _ => validIdx meta.errorIndex

/-- C9.  The wrapper delegates with the original receiver (`this`
binding preserved via `rawMethod.apply(this, args)`), and every caller
argument slot other than the one injected slot of this invocation holds
the value the caller passed. -/
theorem receiver_and_frame_preserved {α : Type} (method url : String)
    (meta : MethodMetadata) (defaultConfig : RequestConfig) (transport : Transport)
    (this : α) (args : List Value) (i : Nat)
    (_hi : i < args.length)
    (hni : ∀ n, injectedSlot meta
        (transport (buildDescriptor defaultConfig meta method url args)) = some n →
        i ≠ n) :
    httpMethodWrapper method url meta defaultConfig transport this args
      = Except.ok ⟨this,
          interceptArgs meta transport
            (buildDescriptor defaultConfig meta method url args) args⟩ ∧
    getArg (interceptArgs meta transport
        (buildDescriptor defaultConfig meta method url args) args) i
      = getArg args i := by
  refine ⟨httpMethodWrapper_eq method url meta defaultConfig transport this args, ?_⟩
  unfold interceptArgs
  cases htr : transport (buildDescriptor defaultConfig meta method url args) with
  | ok d =>
      dsimp only
      unfold injectAt
      cases hv : validIdx meta.responseIndex with
      | none => rfl
      | some n =>
          dsimp only
          exact getArg_setArg_ne args n i d
            (hni n (by rw [htr]; exact hv))
  | error e =>
      dsimp only
      unfold injectAt
      cases hv : validIdx meta.errorIndex with
      | none => rfl
      | some n =>
          dsimp only
          exact getArg_setArg_ne args n i e
            (hni n (by rw [htr]; exact hv))

/-- Witness for C9: with `responseIndex = 1` and a successful request,
argument 0 reaches the original method unchanged and the receiver is the
original one. -/
theorem receiver_and_frame_preserved_witness :
    httpMethodWrapper "GET" "/users" ⟨none, none, none, some 1, none⟩
        ⟨none, none, none, none, none⟩ (fun _ => Except.ok (Value.vStr "payload"))
        () [Value.vNum 42, Value.vUndefined]
      = Except.ok ⟨(),
          interceptArgs ⟨none, none, none, some 1, none⟩
            (fun _ => Except.ok (Value.vStr "payload"))
            (buildDescriptor ⟨none, none, none, none, none⟩
              ⟨none, none, none, some 1, none⟩ "GET" "/users"
              [Value.vNum 42, Value.vUndefined])
            [Value.vNum 42, Value.vUndefined]⟩ ∧
    getArg (interceptArgs ⟨none, none, none, some 1, none⟩
        (fun _ => Except.ok (Value.vStr "payload"))
        (buildDescriptor ⟨none, none, none, none, none⟩
          ⟨none, none, none, some 1, none⟩ "GET" "/users"
          [Value.vNum 42, Value.vUndefined])
        [Value.vNum 42, Value.vUndefined]) 0
      = getArg [Value.vNum 42, Value.vUndefined] 0 :=
  receiver_and_frame_preserved "GET" "/users" ⟨none, none, none, some 1, none⟩
    ⟨none, none, none, none, none⟩ (fun _ => Except.ok (Value.vStr "payload"))
    () [Value.vNum 42, Value.vUndefined] 0 (by decide)
    (fun n h => by
      have hn : n = 1 := by
        have h1 : injectedSlot ⟨none, none, none, some 1, none⟩
            ((fun (_ : RequestConfig) => Except.ok (Value.vStr "payload"))
              (buildDescriptor ⟨none, none, none, none, none⟩
                ⟨none, none, none, some 1, none⟩ "GET" "/users"
                [Value.vNum 42, Value.vUndefined])) = some 1 := rfl
        rw [h1] at h
        exact (Option.some.inj h).symm
      omega)

/-- C10.  Response and error injection are mutually exclusive: on a
successful request the outcome does not depend on `errorIndex` at all
(the error slot is never engaged even when valid), and on a failed
request it does not depend on `responseIndex`. -/
theorem injection_mutually_exclusive (meta : MethodMetadata) (transport : Transport)
    (rc : RequestConfig) (args : List Value) :
    (∀ d, transport rc = Except.ok d → ∀ j,
        interceptArgs { meta with errorIndex := j } transport rc args
          = interceptArgs meta transport rc args) ∧
    (∀ e, transport rc = Except.error e → ∀ j,
        interceptArgs { meta with responseIndex := j } transport rc args
          = interceptArgs meta transport rc args) := by
  constructor
  · intro d hok j
    unfold interceptArgs
    rw [hok]
  · intro e herr j
    unfold interceptArgs
    rw [herr]

/-- Witness for C10: on a concrete success a valid `errorIndex` changes
nothing; on a concrete failure a valid `responseIndex` changes
nothing. -/
theorem injection_mutually_exclusive_witness :
    interceptArgs ⟨none, none, none, some 0, some 1⟩
        (fun _ => Except.ok (Value.vStr "payload")) ⟨none, none, none, none, none⟩
        [Value.vNull, Value.vNull]
      = interceptArgs ⟨none, none, none, some 0, none⟩
        (fun _ => Except.ok (Value.vStr "payload")) ⟨none, none, none, none, none⟩
        [Value.vNull, Value.vNull] ∧
    interceptArgs ⟨none, none, none, some 0, some 1⟩
        (fun _ => Except.error (Value.vStr "boom")) ⟨none, none, none, none, none⟩
        [Value.vNull, Value.vNull]
      = interceptArgs ⟨none, none, none, none, some 1⟩
        (fun _ => Except.error (Value.vStr "boom")) ⟨none, none, none, none, none⟩
        [Value.vNull, Value.vNull] :=
  ⟨(injection_mutually_exclusive ⟨none, none, none, some 0, none⟩
      (fun _ => Except.ok (Value.vStr "payload")) ⟨none, none, none, none, none⟩
      [Value.vNull, Value.vNull]).1 (Value.vStr "payload") rfl (some 1),
   (injection_mutually_exclusive ⟨none, none, none, none, some 1⟩
      (fun _ => Except.error (Value.vStr "boom")) ⟨none, none, none, none, none⟩
      [Value.vNull, Value.vNull]).2 (Value.vStr "boom") rfl (some 0)⟩

end HttpRequestCaps
